import Mathlib

/-!
Shallow embedding of the `sqlalchemy_serializer` package
(`decorators.py`, `session.py`, `fields.py`, `serializers.py`).

Python values flowing through the serializers are modelled by `Value`;
Python dicts (insertion ordered, overwriting on repeated keys) by
association lists built with `dinsert`; exceptions by `Except PyErr`.
Raw query results are either tuples, lists, or model-like objects with
named attributes (`Raw`).
-/

namespace AlchemySer

/-- A Python value as it flows through the serializers. -/
inductive Value where
  | vstr (s : String)
  | vint (n : Int)
  | vbool (b : Bool)
  | vnone
  deriving DecidableEq

/-- A Python dict with string keys: insertion-ordered association list,
`dinsert` overwrites in place like `d[k] = v`. -/
abbrev Dict := List (String × Value)

/-- `d[k] = v`: overwrite the first binding of `k` in place, else append. -/
def dinsert (d : Dict) (k : String) (v : Value) : Dict :=
  match d with
  | [] => [(k, v)]
  | (k0, v0) :: rest =>
      if k0 = k then (k0, v) :: rest else (k0, v0) :: dinsert rest k v

/-- `d.get(k)`: first binding of `k`. -/
def dlookup (d : Dict) (k : String) : Option Value :=
  match d with
  | [] => none
  | (k0, v0) :: rest => if k0 = k then some v0 else dlookup rest k

/-- `d.keys()`. -/
def dkeys : Dict → List String
  | [] => []
  | (k0, _) :: rest => k0 :: dkeys rest

/-- Python exceptions raised by this package, identified by class. -/
inductive PyErr where
  | valueError
  | attributeError
  | indexError
  | typeError
  deriving DecidableEq

/-- Generic string-keyed lookup (used for method/attribute tables). -/
def lookupKV {α : Type} (table : List (String × α)) (k : String) : Option α :=
  match table with
  | [] => none
  | (k0, a) :: rest => if k0 = k then some a else lookupKV rest k

/-- A raw query result: a tuple row, a list, or a model-like object
carrying named attributes. -/
inductive Raw where
  | tup (xs : List Value)
  | lst (xs : List Value)
  | obj (attrs : List (String × Value))

/-- Python `raw[i]`: positional indexing. Tuples and lists index
positionally; objects raise `TypeError`. -/
def getItem (raw : Raw) (i : Nat) : Except PyErr Value :=
  match raw with
  | .tup xs => if h : i < xs.length then .ok (xs.get ⟨i, h⟩) else .error .indexError
  | .lst xs => if h : i < xs.length then .ok (xs.get ⟨i, h⟩) else .error .indexError
  | .obj _ => .error .typeError

/-- Python `getattr(raw, k)`: attribute lookup on a model-like object;
tuples and lists have no such attributes, so `AttributeError`. -/
def getAttr (raw : Raw) (k : String) : Except PyErr Value :=
  match raw with
  | .obj attrs =>
      match lookupKV attrs k with
      | some v => .ok v
      | none => .error .attributeError
  | _ => .error .attributeError

/-- `fields.SerializeField`: a key plus an optional transform; a `none`
transform is `_zero_serialize`, the identity (`func or self._zero_serialize`). -/
structure SerializeField where
  key : String
  func : Option (Value → Value)

/-- `SerializeField.serialize`: apply `self.func` (identity when the
constructor received no function). -/
def SerializeField.serialize (f : SerializeField) (v : Value) : Value :=
  match f.func with
  | none => v
  | some g => g v

/-- `fields.SerializeCustomModelField`: its transform receives the
accumulated result dict plus the dispatched custom args (positional and
keyword custom args are folded into one argument list). -/
structure SerializeCustomModelField where
  func : Dict → List Value → Value
  key : String

/-- `SerializeCustomModelField.serialize`. -/
def SerializeCustomModelField.serialize (f : SerializeCustomModelField)
    (instanceDict : Dict) (args : List Value) : Value :=
  f.func instanceDict args

/-- A query field as it sits in `query_fields`: its `.key` attribute.
SQLAlchemy columns and labelled expressions have a string key; an
unlabelled expression has `key = None`, modelled as `none`. -/
structure QueryField where
  key : Option String
  deriving DecidableEq

/-- The class-level description of a `SQLAlchemySerializator` subclass:
the `fields` class attribute, the class attributes that are
`SerializeField` instances (found by `getattr(self, key)`), the
`serialize_<key>` methods, and the `SerializeCustomModelField` class
attributes in class-dict order. -/
structure SerializatorClass where
  fields : Option (List QueryField)
  attrs : List (String × SerializeField)
  serialize_methods : List (String × (Value → Value))
  custom_fields : List SerializeCustomModelField

/-- `SQLAlchemySerializator._init_query_fields`:
`query_fields = (class fields or []) + list(extra_fields)`. -/
def _init_query_fields (cls : SerializatorClass) (extra_fields : List QueryField) :
    List QueryField :=
  (cls.fields.getD []) ++ extra_fields

/-- One iteration of the `_init_serialize_fields` loop: reject a falsy
key, then either build a fresh `SerializeField(key, func=serialize_func)`
or reuse the class attribute of that name, overriding its `func` when a
`serialize_<key>` method exists. -/
def resolve_field (cls : SerializatorClass) (field : QueryField) :
    Except PyErr SerializeField :=
  match field.key with
  | none => .error .valueError
  | some key =>
      if key = "" then .error .valueError
      else
        let serialize_func := lookupKV cls.serialize_methods key
        match lookupKV cls.attrs key with
        | none => .ok ⟨key, serialize_func⟩
        | some sf =>
            .ok ⟨sf.key, match serialize_func with
                         | some g => some g
                         | none => sf.func⟩

/-- `SQLAlchemySerializator._init_serialize_fields`: resolve each query
field in order, raising at the first falsy key. -/
def _init_serialize_fields (cls : SerializatorClass) :
    List QueryField → Except PyErr (List SerializeField)
  | [] => .ok []
  | f :: fs => do
      let sf ← resolve_field cls f
      let rest ← _init_serialize_fields cls fs
      .ok (sf :: rest)

/-- A constructed `SQLAlchemySerializator` instance: its three lists of
fields (`custom_serialize_fields` is the list `filter` returns). -/
structure SQLAlchemySerializator where
  query_fields : List QueryField
  serialize_fields : List SerializeField
  custom_serialize_fields : List SerializeCustomModelField

/-- `SQLAlchemySerializator.__init__`: build query fields, resolve
serialize fields (may raise `ValueError`), collect custom fields. -/
def mkSQLAlchemySerializator (cls : SerializatorClass)
    (extra_fields : List QueryField) : Except PyErr SQLAlchemySerializator := do
  let qf := _init_query_fields cls extra_fields
  let sf ← _init_serialize_fields cls qf
  .ok ⟨qf, sf, cls.custom_fields⟩

/-- The plain-field loop of `SQLAlchemySerializator.to_dict`:
`result[field.key] = field.serialize(raw[i])` for each field, by index. -/
def serialize_plain_loop : List SerializeField → Raw → Nat → Dict → Except PyErr Dict
  | [], _, _, d => .ok d
  | f :: fs, raw, i, d => do
      let v ← getItem raw i
      serialize_plain_loop fs raw (i + 1) (dinsert d f.key (f.serialize v))

/-- The custom-field loop of `to_dict`:
`result[field.key] = field.serialize(result, *custom_args)`, each custom
field seeing the dict accumulated so far. -/
def serialize_custom_loop : List SerializeCustomModelField → List Value → Dict → Dict
  | [], _, d => d
  | f :: fs, args, d =>
      serialize_custom_loop fs args (dinsert d f.key (f.serialize d args))

/-- `SQLAlchemySerializator.to_dict(raw, *custom_args)`: positional plain
pass, then the custom pass over the accumulated dict. -/
def SQLAlchemySerializator.to_dict (self : SQLAlchemySerializator) (raw : Raw)
    (custom_args : List Value) : Except PyErr Dict := do
  let result ← serialize_plain_loop self.serialize_fields raw 0 []
  .ok (serialize_custom_loop self.custom_serialize_fields custom_args result)

/-- The ORM model class as seen through introspection:
`get_columns(model).values()` and `get_hybrid_properties(model).keys()`. -/
structure ModelCls where
  columns : List QueryField
  hybrid_keys : List String

/-- The class-level description of a `SQLAlchemyModelSerializator`
subclass: the base description plus the `model` and inspection-flag
class attributes. -/
structure ModelSerializatorClass extends SerializatorClass where
  model : Option ModelCls
  to_inspect_fields : Bool
  to_inspect_hybrid_fields : Bool

/-- `SQLAlchemyModelSerializator._init_query_fields`: the base list
first; only when it is empty, extend with introspected columns (when
`to_inspect_fields`) and then introspected hybrid properties, each
hybrid getting its dictionary key assigned (`field.key = key`). -/
def model_init_query_fields (cls : ModelSerializatorClass) (model : ModelCls)
    (toInspect toInspectHybrid : Bool) (extra_fields : List QueryField) :
    List QueryField :=
  let qf := _init_query_fields cls.toSerializatorClass extra_fields
  if qf.isEmpty then
    (if toInspect then model.columns else []) ++
      (if toInspectHybrid then model.hybrid_keys.map (fun k => ⟨some k⟩) else [])
  else qf

/-- A constructed `SQLAlchemyModelSerializator` instance. -/
structure SQLAlchemyModelSerializator extends SQLAlchemySerializator where
  model : ModelCls
  to_inspect_fields : Bool
  to_inspect_hybrid_fields : Bool

/-- `SQLAlchemyModelSerializator.__init__`: resolve `model` from the
class attribute or the `model` kwarg (error when both missing), resolve
the two inspection flags (`kwarg if kwarg is not None else class`), then
run the base constructor with the overridden `_init_query_fields`. -/
def mkSQLAlchemyModelSerializator (cls : ModelSerializatorClass)
    (kwModel : Option ModelCls) (kwInspect kwInspectHybrid : Option Bool)
    (extra_fields : List QueryField) : Except PyErr SQLAlchemyModelSerializator :=
  match cls.model, kwModel with
  | none, none => .error .valueError
  | some m, _ => mkRest m
  | none, some m => mkRest m
where
  mkRest (m : ModelCls) : Except PyErr SQLAlchemyModelSerializator := do
    let toInspect := kwInspect.getD cls.to_inspect_fields
    let toInspectHybrid := kwInspectHybrid.getD cls.to_inspect_hybrid_fields
    let qf := model_init_query_fields cls m toInspect toInspectHybrid extra_fields
    let sf ← _init_serialize_fields cls.toSerializatorClass qf
    .ok ⟨⟨qf, sf, cls.custom_fields⟩, m, toInspect, toInspectHybrid⟩

/-- The attribute-lookup plain loop of `SQLAlchemyModelSerializator.to_dict`:
`result[field.key] = field.serialize(getattr(raw, field.key))`. -/
def serialize_attr_loop : List SerializeField → Raw → Dict → Except PyErr Dict
  | [], _, d => .ok d
  | f :: fs, raw, d => do
      let v ← getAttr raw f.key
      serialize_attr_loop fs raw (dinsert d f.key (f.serialize v))

/-- `SQLAlchemyModelSerializator.to_dict(raw, *custom_args)`: when
`isinstance(raw, tuple)`, delegate to the base `to_dict` without
forwarding the custom args (`super().to_dict(raw)`); otherwise look each
field up as an attribute and run the custom loop with the args. -/
def SQLAlchemyModelSerializator.to_dict (self : SQLAlchemyModelSerializator)
    (raw : Raw) (custom_args : List Value) : Except PyErr Dict :=
  match raw with
  | .tup _ => self.toSQLAlchemySerializator.to_dict raw []
  | _ => do
      let result ← serialize_attr_loop self.serialize_fields raw []
      .ok (serialize_custom_loop self.custom_serialize_fields custom_args result)

/-!
Session decorator (`decorators.sessioned` applied to `create_session`,
as `session.py` does). A run is modelled as the trace of session-lifecycle
events the wrapper emits, plus its outcome. `create_session()` returns
`closing(Session())`; entering the `with` opens the session and leaving
the `with` block closes it. The `if commit: session.commit()` statement
sits after the `with` block.
-/

/-- Session lifecycle events emitted by one call of a wrapped function. -/
inductive SessEvent where
  | session_opened
  | func_called
  | session_committed
  | session_closed
  deriving DecidableEq

deriving instance DecidableEq for Except

/-- Outcome of one call of a `sessioned`-wrapped function: the ordered
event trace and the result (`ValueError` or normal return). -/
structure WrapperRun where
  events : List SessEvent
  result : Except PyErr Unit
  deriving DecidableEq

/-- The `wrapper` inside `sessioned(create_session)`: reads the `session`
and `commit` kwargs (`kwargs.get(..., None)`); with no session, a literal
`commit is False` raises `ValueError` before anything runs, otherwise the
call happens inside `with create_session() as session:` (which closes the
session on exit) and `session.commit()` runs after the `with` block when
`commit` is truthy; with a caller-supplied session the wrapper neither
opens nor closes anything. -/
def sessioned_wrapper (sessionArg : Option Unit) (commitArg : Option Bool) :
    WrapperRun :=
  match sessionArg with
  | none =>
      if commitArg = some false then
        ⟨[], .error .valueError⟩
      else
        ⟨[.session_opened, .func_called, .session_closed] ++
           (if commitArg.getD false then [.session_committed] else []),
         .ok ()⟩
  | some _ =>
      ⟨[.func_called] ++
         (if commitArg.getD false then [.session_committed] else []),
       .ok ()⟩

/-- Spec-side serializer semantics, for the refinement comparison of the
model serializer against section 4.2 of the spec: "if raw is a
tuple/sequence, map by positional index against the resolved field order;
if raw is a single model-like object, map by attribute lookup using each
field key". Tuples AND lists take the positional branch here. -/
def spec_to_dict (self : SQLAlchemyModelSerializator) (raw : Raw) :
    Except PyErr Dict :=
  match raw with
  | .tup _ | .lst _ => do
      let result ← serialize_plain_loop self.serialize_fields raw 0 []
      .ok (serialize_custom_loop self.custom_serialize_fields [] result)
  | .obj _ => do
      let result ← serialize_attr_loop self.serialize_fields raw []
      .ok (serialize_custom_loop self.custom_serialize_fields [] result)

/-!
Stateful reading of `to_dict`, for the frame claim: the loops iterate the
instance lists (`for field in self.serialize_fields`, `for field in
self.custom_serialize_fields`). `filter` in `_init_custom_serialize_fields`
returns a list in the Python 2 idiom this source is written in, so each
loop is list iteration, which re-emits the elements it traverses. The
stateful loops return the traversed list alongside the result so that the
post-call state of the serializer is explicit.
-/

/-- Plain loop, also returning the list of fields as iterated. -/
def serialize_plain_loopS : List SerializeField → Raw → Nat → Dict →
    Except PyErr Dict × List SerializeField
  | [], _, _, d => (.ok d, [])
  | f :: fs, raw, i, d =>
      match getItem raw i with
      | .error e => (.error e, f :: fs)
      | .ok v =>
          let (r, rest) :=
            serialize_plain_loopS fs raw (i + 1) (dinsert d f.key (f.serialize v))
          (r, f :: rest)

/-- Custom loop, also returning the list of fields as iterated. -/
def serialize_custom_loopS : List SerializeCustomModelField → List Value → Dict →
    Dict × List SerializeCustomModelField
  | [], _, d => (d, [])
  | f :: fs, args, d =>
      let (r, rest) := serialize_custom_loopS fs args (dinsert d f.key (f.serialize d args))
      (r, f :: rest)

/-- `to_dict` with the serializer state threaded through both loops: the
result dict plus the serializer as it stands after the call. -/
def to_dictS (self : SQLAlchemySerializator) (raw : Raw)
    (custom_args : List Value) : Except PyErr Dict × SQLAlchemySerializator :=
  match serialize_plain_loopS self.serialize_fields raw 0 [] with
  | (.error e, sfs) =>
      (.error e, ⟨self.query_fields, sfs, self.custom_serialize_fields⟩)
  | (.ok d, sfs) =>
      let (r, cfs) := serialize_custom_loopS self.custom_serialize_fields custom_args d
      (.ok r, ⟨self.query_fields, sfs, cfs⟩)

/-!
Concrete serializers used to instantiate the general theorems.
-/

/-- A serializer with the plain fields `name`, `gold`, `level` of the
spec example and no custom fields. -/
def exampleSerializator : SQLAlchemySerializator :=
  ⟨[⟨some "name"⟩, ⟨some "gold"⟩, ⟨some "level"⟩],
   [⟨"name", none⟩, ⟨"gold", none⟩, ⟨"level", none⟩], []⟩

/-- A model serializer with the single plain field `name`. -/
def c2ser : SQLAlchemyModelSerializator :=
  ⟨⟨[⟨some "name"⟩], [⟨"name", none⟩], []⟩, ⟨[], []⟩, true, true⟩

/-- A serializer with the plain field `gold` and one custom field
`double_gold` that reads the accumulated dict. -/
def c6ser : SQLAlchemySerializator :=
  ⟨[⟨some "gold"⟩],
   [⟨"gold", none⟩],
   [⟨fun d _ => match dlookup d "gold" with
               | some (.vint n) => .vint (2 * n)
               | _ => .vnone,
     "double_gold"⟩]⟩

/-- A serializer class declaring fields `gold` and `name` and a
`serialize_gold` method. -/
def c7cls : SerializatorClass :=
  ⟨some [⟨some "gold"⟩, ⟨some "name"⟩],
   [], [("gold", fun _ => .vint 7)], []⟩

/-- The serialize fields `_init_serialize_fields` resolves for `c7cls`. -/
def c7sf : List SerializeField :=
  [⟨"gold", some (fun _ => .vint 7)⟩, ⟨"name", none⟩]

/-- A serializer class declaring the field `gold`, no `serialize_gold`
method, and a class attribute named `gold` that is a `SerializeField`
carrying its own transform (constant 99). -/
def c7cexCls : SerializatorClass :=
  ⟨some [⟨some "gold"⟩],
   [("gold", ⟨"gold", some (fun _ => .vint 99)⟩)], [], []⟩

/-- The serialize fields `_init_serialize_fields` resolves for
`c7cexCls`: the class attribute is reused, its func kept. -/
def c7cexSf : List SerializeField :=
  [⟨"gold", some (fun _ => .vint 99)⟩]

/-- The serializer `c7cexCls` constructs. -/
def c7cexSer : SQLAlchemySerializator :=
  ⟨[⟨some "gold"⟩], c7cexSf, []⟩

/-- A serializer class whose second declared field has no key
(an unlabelled expression). -/
def c8cls : SerializatorClass :=
  ⟨some [⟨some "name"⟩, ⟨none⟩], [], [], []⟩

/-- A model serializer with plain field `gold` and a custom field `echo`
whose transform returns the first dispatched custom arg. -/
def c9ser : SQLAlchemyModelSerializator :=
  ⟨⟨[⟨some "gold"⟩],
    [⟨"gold", none⟩],
    [⟨fun _ args => match args with
                    | a :: _ => a
                    | [] => .vnone,
      "echo"⟩]⟩, ⟨[], []⟩, true, true⟩

/-!
Lemmas about dict operations and the serializer loops.
-/

theorem mem_dkeys_dinsert (d : Dict) (k k2 : String) (v : Value) :
    k2 ∈ dkeys (dinsert d k v) ↔ k2 = k ∨ k2 ∈ dkeys d := by
  induction d with
  | nil => simp [dinsert, dkeys]
  | cons p rest ih =>
      obtain ⟨k0, v0⟩ := p
      by_cases h : k0 = k
      · subst h
        simp [dinsert, dkeys]
      · simp [dinsert, h, dkeys] at ih ⊢
        tauto

theorem dlookup_dinsert_self (d : Dict) (k : String) (v : Value) :
    dlookup (dinsert d k v) k = some v := by
  induction d with
  | nil => simp [dinsert, dlookup]
  | cons p rest ih =>
      obtain ⟨k0, v0⟩ := p
      by_cases h : k0 = k
      · subst h
        simp [dinsert, dlookup]
      · simp [dinsert, h, dlookup, ih]

theorem dlookup_dinsert_ne (d : Dict) (k k2 : String) (v : Value) (h : k2 ≠ k) :
    dlookup (dinsert d k v) k2 = dlookup d k2 := by
  have h2 : ¬ k = k2 := fun hk => h hk.symm
  induction d with
  | nil => simp [dinsert, dlookup, h2]
  | cons p rest ih =>
      obtain ⟨k0, v0⟩ := p
      by_cases h0 : k0 = k
      · subst h0
        simp [dinsert, dlookup, h2]
      · simp [dinsert, dlookup, h0, ih]

theorem serialize_custom_loop_append (l1 l2 : List SerializeCustomModelField)
    (args : List Value) (d : Dict) :
    serialize_custom_loop (l1 ++ l2) args d =
      serialize_custom_loop l2 args (serialize_custom_loop l1 args d) := by
  induction l1 generalizing d with
  | nil => simp [serialize_custom_loop]
  | cons f fs ih => simp [serialize_custom_loop, ih]

theorem mem_dkeys_custom_loop (cfs : List SerializeCustomModelField)
    (args : List Value) (d : Dict) (k : String) :
    k ∈ dkeys (serialize_custom_loop cfs args d) ↔
      k ∈ cfs.map SerializeCustomModelField.key ∨ k ∈ dkeys d := by
  induction cfs generalizing d with
  | nil => simp [serialize_custom_loop]
  | cons f fs ih =>
      simp only [serialize_custom_loop, ih, mem_dkeys_dinsert, List.map_cons,
        List.mem_cons]
      tauto

theorem dlookup_custom_loop_ne (cfs : List SerializeCustomModelField)
    (args : List Value) (d : Dict) (k : String)
    (h : ∀ cf ∈ cfs, cf.key ≠ k) :
    dlookup (serialize_custom_loop cfs args d) k = dlookup d k := by
  induction cfs generalizing d with
  | nil => simp [serialize_custom_loop]
  | cons f fs ih =>
      have hf : f.key ≠ k := h f (List.mem_cons_self f fs)
      rw [serialize_custom_loop, ih _ (fun cf hcf => h cf (List.mem_cons_of_mem f hcf)),
        dlookup_dinsert_ne _ _ _ _ (fun hk => hf hk.symm)]

theorem serialize_plain_loop_tup_ok (fs : List SerializeField) (xs : List Value)
    (i : Nat) (d : Dict) (hlen : i + fs.length ≤ xs.length) :
    ∃ d2, serialize_plain_loop fs (.tup xs) i d = .ok d2 ∧
      ∀ k, k ∈ dkeys d2 ↔ k ∈ fs.map SerializeField.key ∨ k ∈ dkeys d := by
  induction fs generalizing i d with
  | nil => exact ⟨d, rfl, by simp [serialize_plain_loop]⟩
  | cons f fsr ih =>
      have hi : i < xs.length := by
        simp only [List.length_cons] at hlen
        omega
      obtain ⟨d2, hd2, hk2⟩ := ih (i + 1) (dinsert d f.key (f.serialize (xs.get ⟨i, hi⟩)))
        (by simp only [List.length_cons] at hlen; omega)
      refine ⟨d2, ?_, ?_⟩
      · simp only [serialize_plain_loop, getItem, hi, dif_pos, Except.bind]
        exact hd2
      · intro k
        rw [hk2 k, mem_dkeys_dinsert]
        simp only [List.map_cons, List.mem_cons]
        tauto

theorem init_serialize_fields_length (cls : SerializatorClass)
    (qf : List QueryField) (sf : List SerializeField)
    (h : _init_serialize_fields cls qf = .ok sf) : sf.length = qf.length := by
  induction qf generalizing sf with
  | nil =>
      simp only [_init_serialize_fields] at h
      cases h
      rfl
  | cons f fsr ih =>
      simp only [_init_serialize_fields, Except.bind] at h
      cases hr : resolve_field cls f with
      | error e => rw [hr] at h; cases h
      | ok s =>
          rw [hr] at h
          cases hrest : _init_serialize_fields cls fsr with
          | error e => rw [hrest] at h; cases h
          | ok rest =>
              rw [hrest] at h
              cases h
              simp [ih rest hrest]

theorem init_serialize_fields_get (cls : SerializatorClass)
    (qf : List QueryField) (sf : List SerializeField)
    (h : _init_serialize_fields cls qf = .ok sf)
    (i : Nat) (hi : i < qf.length) (hi2 : i < sf.length) :
    resolve_field cls (qf.get ⟨i, hi⟩) = .ok (sf.get ⟨i, hi2⟩) := by
  induction qf generalizing sf i with
  | nil => exact absurd hi (by simp)
  | cons f fsr ih =>
      simp only [_init_serialize_fields, Except.bind] at h
      cases hr : resolve_field cls f with
      | error e => rw [hr] at h; cases h
      | ok s =>
          rw [hr] at h
          cases hrest : _init_serialize_fields cls fsr with
          | error e => rw [hrest] at h; cases h
          | ok rest =>
              rw [hrest] at h
              cases h
              cases i with
              | zero => exact hr
              | succ n =>
                  have hn : n < fsr.length := by
                    simp only [List.length_cons] at hi
                    omega
                  have hn2 : n < rest.length := by
                    simp only [List.length_cons] at hi2
                    omega
                  exact ih rest hrest n hn hn2

theorem resolve_field_error_of_bad (cls : SerializatorClass) (f : QueryField)
    (hbad : f.key = none ∨ f.key = some "") :
    resolve_field cls f = .error .valueError := by
  rcases hbad with h | h <;> simp [resolve_field, h]

theorem resolve_field_error_val (cls : SerializatorClass) (f : QueryField)
    (e : PyErr) (h : resolve_field cls f = .error e) : e = .valueError := by
  rcases hkey : f.key with _ | k
  · simp [resolve_field, hkey] at h
    exact h.symm
  · by_cases hk : k = ""
    · simp [resolve_field, hkey, hk] at h
      exact h.symm
    · simp only [resolve_field, hkey, hk, if_false, ite_false] at h
      split at h <;> simp at h

theorem init_serialize_fields_error_of_bad (cls : SerializatorClass)
    (qf : List QueryField) (f : QueryField) (hf : f ∈ qf)
    (hbad : f.key = none ∨ f.key = some "") :
    _init_serialize_fields cls qf = .error .valueError := by
  induction qf with
  | nil => cases hf
  | cons g gs ih =>
      rcases List.mem_cons.mp hf with h | h
      · subst h
        simp only [_init_serialize_fields]
        rw [resolve_field_error_of_bad cls f hbad]
        rfl
      · simp only [_init_serialize_fields]
        cases hr : resolve_field cls g with
        | error e =>
            rw [resolve_field_error_val cls g e hr]
            rfl
        | ok s =>
            rw [ih h]
            rfl

theorem serialize_plain_loopS_snd (fs : List SerializeField) (raw : Raw)
    (i : Nat) (d : Dict) : (serialize_plain_loopS fs raw i d).2 = fs := by
  induction fs generalizing i d with
  | nil => rfl
  | cons f fsr ih =>
      simp only [serialize_plain_loopS]
      cases getItem raw i with
      | error e => rfl
      | ok v => simp [ih]

theorem serialize_plain_loopS_fst (fs : List SerializeField) (raw : Raw)
    (i : Nat) (d : Dict) :
    (serialize_plain_loopS fs raw i d).1 = serialize_plain_loop fs raw i d := by
  induction fs generalizing i d with
  | nil => rfl
  | cons f fsr ih =>
      simp only [serialize_plain_loopS, serialize_plain_loop, Except.bind]
      cases getItem raw i with
      | error e => rfl
      | ok v =>
          simp only [ih]
          rfl

theorem serialize_custom_loopS_snd (cfs : List SerializeCustomModelField)
    (args : List Value) (d : Dict) :
    (serialize_custom_loopS cfs args d).2 = cfs := by
  induction cfs generalizing d with
  | nil => rfl
  | cons f fsr ih => simp [serialize_custom_loopS, ih]

theorem serialize_custom_loopS_fst (cfs : List SerializeCustomModelField)
    (args : List Value) (d : Dict) :
    (serialize_custom_loopS cfs args d).1 = serialize_custom_loop cfs args d := by
  induction cfs generalizing d with
  | nil => rfl
  | cons f fsr ih => simp [serialize_custom_loopS, serialize_custom_loop, ih]

theorem to_dictS_spec (s : SQLAlchemySerializator) (raw : Raw)
    (args : List Value) : to_dictS s raw args = (s.to_dict raw args, s) := by
  unfold to_dictS SQLAlchemySerializator.to_dict
  cases hp : serialize_plain_loopS s.serialize_fields raw 0 [] with
  | mk r sfs =>
      have hsnd : sfs = s.serialize_fields := by
        have := serialize_plain_loopS_snd s.serialize_fields raw 0 []
        rw [hp] at this
        exact this
      have hfst : r = serialize_plain_loop s.serialize_fields raw 0 [] := by
        have := serialize_plain_loopS_fst s.serialize_fields raw 0 []
        rw [hp] at this
        exact this
      subst hsnd
      cases r with
      | error e =>
          simp only [← hfst]
          rfl
      | ok d =>
          simp only [← hfst, Except.bind]
          cases hc : serialize_custom_loopS s.custom_serialize_fields args d with
          | mk r2 cfs2 =>
              have hc2 : cfs2 = s.custom_serialize_fields := by
                have := serialize_custom_loopS_snd s.custom_serialize_fields args d
                rw [hc] at this
                exact this
              have hr2 : r2 = serialize_custom_loop s.custom_serialize_fields args d := by
                have := serialize_custom_loopS_fst s.custom_serialize_fields args d
                rw [hc] at this
                exact this
              subst hc2
              simp only [hr2]
              rfl

/-!
Claim theorems.
-/

/-- Claim C1: the claim says that for an auto-opened session (no session
kwarg, commit truthy) the commit happens before the session is closed.
Evaluating the wrapper at that input shows the code emits
`session_closed` (the exit of the `with closing(...)` block) strictly
before `session_committed` (the `if commit:` statement after the block):
the code contradicts the claim and the spec's own lifecycle. -/
theorem c1_auto_session_closed_before_commit :
    sessioned_wrapper none (some true) =
      ⟨[.session_opened, .func_called, .session_closed, .session_committed],
       .ok ()⟩ := by
  rfl

/-- Claim C2 (counterexample): the claim says any sequence, e.g. a list,
is mapped by positional index; on the model serializer `c2ser` the list
`[vstr "g1"]` instead takes the attribute-lookup branch and raises
`AttributeError`, while the positional mapping of the spec would
succeed. -/
theorem c2_list_is_not_mapped_positionally :
    c2ser.to_dict (.lst [.vstr "g1"]) [] = .error .attributeError ∧
      spec_to_dict c2ser (.lst [.vstr "g1"]) = .ok [("name", .vstr "g1")] := by
  constructor <;> rfl

/-- Claim C2 (amended): `SQLAlchemyModelSerializator.to_dict` maps by
positional index only when `raw` is a tuple, and maps by attribute lookup
for every non-tuple `raw` — including lists, which therefore raise
`AttributeError` as soon as there is at least one resolved field. -/
theorem c2_tuple_positional_nontuple_attribute
    (s : SQLAlchemyModelSerializator) (xs : List Value)
    (a : List (String × Value)) (args : List Value) :
    s.to_dict (.tup xs) args = spec_to_dict s (.tup xs) ∧
    s.to_dict (.obj a) [] = spec_to_dict s (.obj a) ∧
    (∀ f fs, s.serialize_fields = f :: fs →
      s.to_dict (.lst xs) args = .error .attributeError) := by
  refine ⟨rfl, rfl, ?_⟩
  intro f fs hsf
  simp only [SQLAlchemyModelSerializator.to_dict, hsf, serialize_attr_loop,
    getAttr, Except.bind]
  rfl

/-- Claim C2 (witness for the amended theorem): instantiated at `c2ser`
and a concrete one-element list. -/
theorem c2_amended_witness :
    c2ser.to_dict (.lst [.vint 5]) [] = .error .attributeError :=
  (c2_tuple_positional_nontuple_attribute c2ser [.vint 5] [] []).2.2
    ⟨"name", none⟩ [] rfl

/-- Claim C3: the resolved field list decomposes as explicit fields
(class fields then extras), then introspected columns, then introspected
hybrid properties — and the two introspected segments are empty whenever
any explicit field exists, so explicit fields always come first and
suppress introspection, and columns always come before hybrids. -/
theorem c3_field_precedence (cls : ModelSerializatorClass) (m : ModelCls)
    (tif tihf : Bool) (extra : List QueryField) :
    model_init_query_fields cls m tif tihf extra =
      _init_query_fields cls.toSerializatorClass extra ++
      ((if (_init_query_fields cls.toSerializatorClass extra).isEmpty && tif
        then m.columns else []) ++
       (if (_init_query_fields cls.toSerializatorClass extra).isEmpty && tihf
        then m.hybrid_keys.map (fun k => QueryField.mk (some k)) else [])) ∧
    (_init_query_fields cls.toSerializatorClass extra ≠ [] →
      model_init_query_fields cls m tif tihf extra =
        _init_query_fields cls.toSerializatorClass extra) := by
  constructor
  · unfold model_init_query_fields
    cases h : _init_query_fields cls.toSerializatorClass extra with
    | nil => simp
    | cons f fs => simp
  · intro hne
    unfold model_init_query_fields
    cases h : _init_query_fields cls.toSerializatorClass extra with
    | nil => exact absurd h hne
    | cons f fs => simp

/-- Claim C3 (witness): a class with one explicit field, a model with one
column and one hybrid: the resolved list is exactly the explicit field. -/
theorem c3_witness :
    model_init_query_fields
      ⟨⟨some [⟨some "name"⟩], [], [], []⟩, none, true, true⟩
      ⟨[⟨some "gold"⟩], ["is_rich"]⟩ true true [] = [⟨some "name"⟩] :=
  (c3_field_precedence ⟨⟨some [⟨some "name"⟩], [], [], []⟩, none, true, true⟩
      ⟨[⟨some "gold"⟩], ["is_rich"]⟩ true true []).2 (by decide)

/-- Claim C4: with no session kwarg and `commit=False`, the wrapper
raises `ValueError` eagerly: no session-open event and no call of the
wrapped function appear in the trace. -/
theorem c4_commit_false_without_session_raises_eagerly :
    sessioned_wrapper none (some false) = ⟨[], .error .valueError⟩ ∧
    SessEvent.session_opened ∉ (sessioned_wrapper none (some false)).events ∧
    SessEvent.func_called ∉ (sessioned_wrapper none (some false)).events := by
  refine ⟨rfl, ?_, ?_⟩ <;> simp [sessioned_wrapper]

/-- Claim C5: on a tuple whose length equals the number of resolved plain
fields, `to_dict` succeeds and its key set is exactly the plain-field
keys together with the custom-field keys; in particular the fields
`name`, `gold`, `level` applied to the row `("g1", 10, 2)` yield
`{"name": "g1", "gold": 10, "level": 2}`. -/
theorem c5_tuple_key_set :
    (∀ (s : SQLAlchemySerializator) (xs : List Value) (args : List Value),
      s.serialize_fields.length = xs.length →
      ∃ d, s.to_dict (.tup xs) args = .ok d ∧
        ∀ k, k ∈ dkeys d ↔
          (k ∈ s.serialize_fields.map SerializeField.key ∨
           k ∈ s.custom_serialize_fields.map SerializeCustomModelField.key)) ∧
    exampleSerializator.to_dict (.tup [.vstr "g1", .vint 10, .vint 2]) [] =
      .ok [("name", .vstr "g1"), ("gold", .vint 10), ("level", .vint 2)] := by
  constructor
  · intro s xs args hlen
    obtain ⟨d2, hd2, hk2⟩ :=
      serialize_plain_loop_tup_ok s.serialize_fields xs 0 [] (by omega)
    refine ⟨serialize_custom_loop s.custom_serialize_fields args d2, ?_, ?_⟩
    · simp only [SQLAlchemySerializator.to_dict, hd2, Except.bind]
      rfl
    · intro k
      rw [mem_dkeys_custom_loop, hk2 k]
      have hnil : k ∈ dkeys [] ↔ False := by simp [dkeys]
      rw [hnil]
      tauto
  · rfl

/-- Claim C5 (witness): the general statement applied to the example
serializer and the example row. -/
theorem c5_witness :
    ∃ d, exampleSerializator.to_dict (.tup [.vstr "g1", .vint 10, .vint 2]) [] =
        .ok d ∧
      ∀ k, k ∈ dkeys d ↔
        (k ∈ exampleSerializator.serialize_fields.map SerializeField.key ∨
         k ∈ exampleSerializator.custom_serialize_fields.map
               SerializeCustomModelField.key) :=
  c5_tuple_key_set.1 exampleSerializator [.vstr "g1", .vint 10, .vint 2] []
    (by decide)

/-- Claim C6: once the plain pass has produced `plainD`, `to_dict` is the
custom fold over `plainD`; the dict the j-th custom transform receives
contains every plain key, agrees with `plainD` on every plain key no
earlier custom field has touched, and the j-th custom result is what the
output holds at the j-th custom key right after that step — so custom
transforms always see fully-serialized plain fields and overwrite
same-keyed entries. -/
theorem c6_custom_fields_see_final_plain_values
    (s : SQLAlchemySerializator) (raw : Raw) (args : List Value)
    (plainD : Dict)
    (hplain : serialize_plain_loop s.serialize_fields raw 0 [] = .ok plainD) :
    s.to_dict raw args =
      .ok (serialize_custom_loop s.custom_serialize_fields args plainD) ∧
    ∀ j (hj : j < s.custom_serialize_fields.length),
      (∀ k, k ∈ dkeys plainD →
        k ∈ dkeys (serialize_custom_loop (s.custom_serialize_fields.take j)
              args plainD)) ∧
      (∀ k, k ∈ dkeys plainD →
        (∀ cf ∈ s.custom_serialize_fields.take j, cf.key ≠ k) →
        dlookup (serialize_custom_loop (s.custom_serialize_fields.take j)
            args plainD) k = dlookup plainD k) ∧
      dlookup (serialize_custom_loop (s.custom_serialize_fields.take (j + 1))
          args plainD)
          ((s.custom_serialize_fields.get ⟨j, hj⟩).key) =
        some ((s.custom_serialize_fields.get ⟨j, hj⟩).serialize
          (serialize_custom_loop (s.custom_serialize_fields.take j) args plainD)
          args) := by
  constructor
  · simp only [SQLAlchemySerializator.to_dict, hplain, Except.bind]
    rfl
  · intro j hj
    refine ⟨?_, ?_, ?_⟩
    · intro k hk
      rw [mem_dkeys_custom_loop]
      exact Or.inr hk
    · intro k hk hne
      exact dlookup_custom_loop_ne _ args plainD k hne
    · have htake : s.custom_serialize_fields.take (j + 1) =
          s.custom_serialize_fields.take j ++
            [s.custom_serialize_fields.get ⟨j, hj⟩] := by
        rw [List.take_succ, List.getElem?_eq_getElem hj]
        rfl
      rw [htake, serialize_custom_loop_append]
      simp only [serialize_custom_loop]
      rw [dlookup_dinsert_self]

/-- Claim C6 (witness): instantiated at `c6ser` on the row `(10)`: the
custom field `double_gold` sees the final plain value of `gold`. -/
theorem c6_witness :
    c6ser.to_dict (.tup [.vint 10]) [] =
      .ok (serialize_custom_loop c6ser.custom_serialize_fields []
            [("gold", .vint 10)]) :=
  (c6_custom_fields_see_final_plain_values c6ser (.tup [.vint 10]) []
    [("gold", .vint 10)] rfl).1

/-- Claim C7 (counterexample): the claim says a field without a
`serialize_<key>` method keeps its raw value unchanged. The class
`c7cexCls` defines no `serialize_gold` method, yet its constructed
serializer maps the raw value `1` of field `gold` to `99`: the
same-named `SerializeField` class attribute's own func is applied
(`serialize_field = getattr(self, key, None)` reused with its func
kept), not the identity. -/
theorem c7_claim_counterexample :
    lookupKV c7cexCls.serialize_methods "gold" = none ∧
    mkSQLAlchemySerializator c7cexCls [] = .ok c7cexSer ∧
    c7cexSer.to_dict (.tup [.vint 1]) [] = .ok [("gold", .vint 99)] :=
  ⟨rfl, rfl, rfl⟩

/-- Claim C7 (amended): when `_init_serialize_fields` succeeds, a field
whose key `k` has a `serialize_k` method serializes through that method;
a field with neither a `serialize_k` method nor a same-named class
attribute keeps the identity transform; and a field with a same-named
`SerializeField` class attribute but no `serialize_k` method serializes
through that attribute's own func. -/
theorem c7_field_transform_resolution
    (cls : SerializatorClass) (qf : List QueryField)
    (sf : List SerializeField)
    (h : _init_serialize_fields cls qf = .ok sf)
    (i : Nat) (hi : i < qf.length) (hi2 : i < sf.length) (k : String)
    (hk : (qf.get ⟨i, hi⟩).key = some k) :
    (∀ g, lookupKV cls.serialize_methods k = some g →
      ∀ v, (sf.get ⟨i, hi2⟩).serialize v = g v) ∧
    (lookupKV cls.serialize_methods k = none →
      lookupKV cls.attrs k = none →
      ∀ v, (sf.get ⟨i, hi2⟩).serialize v = v) ∧
    (lookupKV cls.serialize_methods k = none →
      ∀ sfattr, lookupKV cls.attrs k = some sfattr →
      ∀ v, (sf.get ⟨i, hi2⟩).serialize v = sfattr.serialize v) := by
  have hres := init_serialize_fields_get cls qf sf h i hi hi2
  simp only [resolve_field, hk] at hres
  by_cases hempty : k = ""
  · rw [hempty] at hres
    simp at hres
  · rw [if_neg hempty] at hres
    refine ⟨?_, ?_, ?_⟩
    · intro g hg v
      rw [hg] at hres
      cases hattr : lookupKV cls.attrs k with
      | none =>
          rw [hattr] at hres
          have heq := Except.ok.inj hres
          rw [← heq]
          simp [SerializeField.serialize]
      | some sfattr =>
          rw [hattr] at hres
          have heq := Except.ok.inj hres
          rw [← heq]
          simp [SerializeField.serialize]
    · intro hg hattr v
      rw [hg, hattr] at hres
      have heq := Except.ok.inj hres
      rw [← heq]
      simp [SerializeField.serialize]
    · intro hg sfattr hattr v
      rw [hg, hattr] at hres
      have heq := Except.ok.inj hres
      rw [← heq]

/-- Claim C7 (witness): for `c7cls` the resolved field `gold` serializes
through `serialize_gold` (constant 7) and the resolved field `name`
keeps the identity transform; for `c7cexCls` the resolved field `gold`
serializes through the same-named class attribute's func (constant 99). -/
theorem c7_witness :
    (c7sf.get ⟨0, by decide⟩).serialize (.vint 1) = .vint 7 ∧
    (c7sf.get ⟨1, by decide⟩).serialize (.vstr "x") = .vstr "x" ∧
    (c7cexSf.get ⟨0, by decide⟩).serialize (.vint 1) = .vint 99 :=
  ⟨(c7_field_transform_resolution c7cls
      [⟨some "gold"⟩, ⟨some "name"⟩] c7sf rfl 0 (by decide) (by decide)
      "gold" rfl).1 (fun _ => .vint 7) rfl (.vint 1),
   (c7_field_transform_resolution c7cls
      [⟨some "gold"⟩, ⟨some "name"⟩] c7sf rfl 1 (by decide) (by decide)
      "name" rfl).2.1 rfl rfl (.vstr "x"),
   (c7_field_transform_resolution c7cexCls
      [⟨some "gold"⟩] c7cexSf rfl 0 (by decide) (by decide)
      "gold" rfl).2.2 rfl ⟨"gold", some (fun _ => .vint 99)⟩ rfl (.vint 1)⟩

/-- Claim C8: if any field of the resolved query-field list has a missing
or empty key, the serializer constructor itself returns `ValueError` —
there is no constructed serializer to serialize with later. -/
theorem c8_empty_key_raises_at_construction
    (cls : SerializatorClass) (extra : List QueryField) (f : QueryField)
    (hf : f ∈ _init_query_fields cls extra)
    (hbad : f.key = none ∨ f.key = some "") :
    mkSQLAlchemySerializator cls extra = .error .valueError := by
  simp only [mkSQLAlchemySerializator,
    init_serialize_fields_error_of_bad cls (_init_query_fields cls extra)
      f hf hbad]
  rfl

/-- Claim C8 (witness): the class `c8cls`, whose second field is an
unlabelled expression, fails to construct. -/
theorem c8_witness :
    mkSQLAlchemySerializator c8cls [] = .error .valueError :=
  c8_empty_key_raises_at_construction c8cls [] ⟨none⟩ (by decide)
    (Or.inl rfl)

/-- Claim C9: for tuple input the model serializer delegates to the base
`to_dict` without the custom args, so the result is independent of them;
for a non-tuple (model-like) input the args do reach the custom
transforms, witnessed by `c9ser`, whose custom field echoes the first
custom arg. -/
theorem c9_custom_args_dropped_for_tuples :
    (∀ (s : SQLAlchemyModelSerializator) (xs : List Value)
       (args args2 : List Value),
      s.to_dict (.tup xs) args = s.to_dict (.tup xs) args2) ∧
    c9ser.to_dict (.obj [("gold", .vint 1)]) [.vint 42] ≠
      c9ser.to_dict (.obj [("gold", .vint 1)]) [] := by
  constructor
  · intro s xs args args2
    rfl
  · decide

/-- Claim C10: `to_dict` with the serializer state threaded through its
loops returns the serializer unchanged — `query_fields`,
`serialize_fields` and `custom_serialize_fields` are exactly what they
were — and a second call on that post-state returns the same mapping. -/
theorem c10_to_dict_preserves_serializer_state
    (s : SQLAlchemySerializator) (raw : Raw) (args : List Value) :
    (to_dictS s raw args).2 = s ∧
    (to_dictS s raw args).2.query_fields = s.query_fields ∧
    (to_dictS s raw args).2.serialize_fields = s.serialize_fields ∧
    (to_dictS s raw args).2.custom_serialize_fields =
      s.custom_serialize_fields ∧
    (to_dictS ((to_dictS s raw args).2) raw args).1 =
      (to_dictS s raw args).1 := by
  rw [to_dictS_spec]
  simp [to_dictS_spec]

end AlchemySer
